import Mathlib

/-!
Verification of the AiContribFHE contract (the FHE contribution-tracking
protocol core): a shallow embedding of its state and operations, followed by
theorems settling the stated properties of the protocol.

The external FHE library is modelled abstractly: a ciphertext handle either is
the uninitialized (zero) handle or carries the 32-bit plaintext it encrypts;
`FHE.add` is wrapping 32-bit addition on plaintexts; the oracle signature check
`FHE.checkSignatures` is an arbitrary boolean verifier supplied as a parameter.
-/

namespace AiContribFHE

/-- Opaque handle to an encrypted 32-bit value (Solidity `euint32`). The
uninitialized handle (the mapping default) is distinguished from produced
ciphertexts, which carry their plaintext value for modelling purposes. -/
inductive Ciphertext where
  | uninit : Ciphertext
  | enc : Nat → Ciphertext
deriving DecidableEq, Repr

namespace FHE

/-- `FHE.isInitialized`: true iff the handle is a real ciphertext. -/
def isInitialized : Ciphertext → Bool
  | Ciphertext.uninit => false
  | Ciphertext.enc _ => true

/-- `FHE.asEuint32`: trivial encryption of a plaintext, reduced to 32 bits. -/
def asEuint32 (v : Nat) : Ciphertext := Ciphertext.enc (v % 2 ^ 32)

/-- `FHE.add`: homomorphic wrapping 32-bit addition. The contract only ever
adds initialized handles; adding an uninitialized one yields no ciphertext. -/
def add : Ciphertext → Ciphertext → Ciphertext
  | Ciphertext.enc a, Ciphertext.enc b => Ciphertext.enc ((a + b) % 2 ^ 32)
  | _, _ => Ciphertext.uninit

end FHE

/-- Plaintext carried by a handle; 0 for the uninitialized handle. -/
def Ciphertext.valD : Ciphertext → Nat
  | Ciphertext.uninit => 0
  | Ciphertext.enc v => v

/-- ABI byte strings, classified by the payload shapes this contract decodes. -/
inductive Bytes where
  | arr : List Nat → Bytes
  | scalar : Nat → Bytes
deriving DecidableEq, Repr

/-- `abi.decode(cleartexts, (uint32[]))`: succeeds exactly on an encoded
`uint32[]`; decoded entries are 32-bit values. -/
def decodeUint32Array : Bytes → Option (List Nat)
  | Bytes.arr xs => some (xs.map (fun x => x % 2 ^ 32))
  | Bytes.scalar _ => none

/-- `abi.decode(cleartexts, (uint32))`: succeeds exactly on an encoded
single `uint32`. -/
def decodeUint32 : Bytes → Option Nat
  | Bytes.scalar v => some (v % 2 ^ 32)
  | Bytes.arr _ => none

/-- The oracle verifier `FHE.checkSignatures`, abstracted: given the request
id, the cleartexts and the proof, accept or reject. -/
abbrev Verifier := Nat → Bytes → Nat → Bool

/-- `struct EncryptedModelUpdate`. -/
structure EncryptedModelUpdate where
  id : Nat
  encryptedWeights : Ciphertext
  encryptedMetrics : Ciphertext
  timestamp : Nat
deriving DecidableEq, Repr

/-- `struct DecryptedContribution`. -/
structure DecryptedContribution where
  participantId : Nat
  shapleyValue : Nat
  isRevealed : Bool
deriving DecidableEq, Repr

/-- Events emitted by the contract. -/
inductive LogEvent where
  | UpdateSubmitted : Nat → Nat → LogEvent
  | DecryptionRequested : Nat → LogEvent
  | ContributionDecrypted : Nat → LogEvent
deriving DecidableEq, Repr

/-- The contract storage. Solidity mappings are total functions returning the
zero value of their range at absent keys. -/
structure ContractState where
  updateCount : Nat
  encryptedUpdates : Nat → EncryptedModelUpdate
  decryptedContributions : Nat → DecryptedContribution
  encryptedContributionTotals : Nat → Ciphertext
  participantList : List Nat
  requestToUpdateId : Nat → Nat
  log : List LogEvent

/-- Freshly deployed contract: every mapping at its zero value. -/
def initialState : ContractState where
  updateCount := 0
  encryptedUpdates := fun _ => ⟨0, Ciphertext.uninit, Ciphertext.uninit, 0⟩
  decryptedContributions := fun _ => ⟨0, 0, false⟩
  encryptedContributionTotals := fun _ => Ciphertext.uninit
  participantList := []
  requestToUpdateId := fun _ => 0
  log := []

/-- Failure modes of the protocol operations (spec taxonomy): `AlreadyRevealed`
is the revert "Already decrypted", `UnknownRequest` the revert
"Invalid request", `NotFound` the revert "Update not found",
`VerificationFailed` a revert inside `FHE.checkSignatures`, and `DecodeFailed`
an `abi.decode` failure or out-of-bounds array access. -/
inductive ProtocolError where
  | AlreadyRevealed : ProtocolError
  | UnknownRequest : ProtocolError
  | VerificationFailed : ProtocolError
  | NotFound : ProtocolError
  | DecodeFailed : ProtocolError
deriving DecidableEq, Repr

/-- `submitEncryptedUpdate(encryptedWeights, encryptedMetrics)`: increments
the counter, stores the update and an initial unrevealed record under the new
id, and emits `UpdateSubmitted(newId, timestamp)`. The allocated id (also
carried by the emitted event) is returned as the first component. -/
def submitEncryptedUpdate (encryptedWeights encryptedMetrics : Ciphertext)
    (timestamp : Nat) (s : ContractState) : Nat × ContractState :=
  let newId := s.updateCount + 1
  (newId,
    { s with
      updateCount := newId
      encryptedUpdates := Function.update s.encryptedUpdates newId
        ⟨newId, encryptedWeights, encryptedMetrics, timestamp⟩
      decryptedContributions := Function.update s.decryptedContributions newId
        ⟨newId, 0, false⟩
      log := s.log ++ [LogEvent.UpdateSubmitted newId timestamp] })

/-- `requestUpdateDecryption(updateId)`: requires the record unrevealed, then
records `requestToUpdateId[reqId] = updateId` for the oracle-chosen request id
`reqId` and emits `DecryptionRequested(updateId)`. On failure the paired state
is the storage as it stands, which (checks preceding all writes) is the input
state. -/
def requestUpdateDecryption (reqId updateId : Nat) (s : ContractState) :
    Except ProtocolError Unit × ContractState :=
  if (s.decryptedContributions updateId).isRevealed then
    (Except.error ProtocolError.AlreadyRevealed, s)
  else
    (Except.ok (),
      { s with
        requestToUpdateId := Function.update s.requestToUpdateId reqId updateId
        log := s.log ++ [LogEvent.DecryptionRequested updateId] })

/-- Lines 90–92 of the contract (spec: Contribution Ledger `markRevealed`):
set `shapleyValue` to the decoded value and `isRevealed` to true. -/
def markRevealed (s : ContractState) (updateId value : Nat) : ContractState :=
  { s with
    decryptedContributions := Function.update s.decryptedContributions updateId
      ⟨(s.decryptedContributions updateId).participantId, value, true⟩ }

/-- Lines 94–102 of the contract (spec: Aggregation Engine `accumulate`): if
the id has no initialized total, initialize it to an encrypted zero and append
the id to `participantList`; then homomorphically add the value into the
total. -/
def accumulate (s : ContractState) (updateId value : Nat) : ContractState :=
  let s1 :=
    if FHE.isInitialized (s.encryptedContributionTotals updateId) = false then
      { s with
        encryptedContributionTotals :=
          Function.update s.encryptedContributionTotals updateId (FHE.asEuint32 0)
        participantList := s.participantList ++ [updateId] }
    else s
  { s1 with
    encryptedContributionTotals :=
      Function.update s1.encryptedContributionTotals updateId
        (FHE.add (s1.encryptedContributionTotals updateId) (FHE.asEuint32 value)) }

/-- `decryptContribution(requestId, cleartexts, proof)`: looks up the target
id and requires it nonzero ("Invalid request"), then runs
`FHE.checkSignatures`, decodes the cleartexts as `uint32[]`, takes element 0,
marks the record revealed and accumulates, emitting
`ContributionDecrypted(updateId)`. -/
def decryptContribution (verify : Verifier) (requestId : Nat) (cleartexts : Bytes)
    (proof : Nat) (s : ContractState) : Except ProtocolError Unit × ContractState :=
  let updateId := s.requestToUpdateId requestId
  if updateId = 0 then (Except.error ProtocolError.UnknownRequest, s)
  else if verify requestId cleartexts proof = false then
    (Except.error ProtocolError.VerificationFailed, s)
  else
    match decodeUint32Array cleartexts with
    | none => (Except.error ProtocolError.DecodeFailed, s)
    | some results =>
      match results with
      | [] => (Except.error ProtocolError.DecodeFailed, s)
      | r0 :: _ =>
        let s2 := accumulate (markRevealed s updateId r0) updateId r0
        (Except.ok (),
          { s2 with log := s2.log ++ [LogEvent.ContributionDecrypted updateId] })

/-- `getDecryptedContribution(updateId)`: read-only view of the record. -/
def getDecryptedContribution (updateId : Nat) (s : ContractState) :
    Nat × Nat × Bool :=
  let c := s.decryptedContributions updateId
  (c.participantId, c.shapleyValue, c.isRevealed)

/-- `getEncryptedContributionTotal(updateId)`: read-only view of the total. -/
def getEncryptedContributionTotal (updateId : Nat) (s : ContractState) :
    Ciphertext :=
  s.encryptedContributionTotals updateId

/-- `requestContributionTotalDecryption(updateId)`: requires an initialized
total ("Update not found"), then records `requestToUpdateId[reqId] = updateId`
for the oracle-chosen request id. No event is emitted. -/
def requestContributionTotalDecryption (reqId updateId : Nat) (s : ContractState) :
    Except ProtocolError Unit × ContractState :=
  let total := s.encryptedContributionTotals updateId
  if FHE.isInitialized total = false then
    (Except.error ProtocolError.NotFound, s)
  else
    (Except.ok (),
      { s with
        requestToUpdateId := Function.update s.requestToUpdateId reqId updateId })

/-- `decryptTotalContribution(requestId, cleartexts, proof)`: looks up the
target id without any validity check, runs `FHE.checkSignatures`, decodes a
single `uint32` and performs no further state change (placeholder body). -/
def decryptTotalContribution (verify : Verifier) (requestId : Nat)
    (cleartexts : Bytes) (proof : Nat) (s : ContractState) :
    Except ProtocolError Unit × ContractState :=
  let _updateId := s.requestToUpdateId requestId
  if verify requestId cleartexts proof = false then
    (Except.error ProtocolError.VerificationFailed, s)
  else
    match decodeUint32 cleartexts with
    | none => (Except.error ProtocolError.DecodeFailed, s)
    | some _totalValue => (Except.ok (), s)

/-- One externally invokable state-changing call, together with the data the
environment chooses for it (timestamps, the oracle-assigned request ids, and
the callback payloads). -/
inductive Event where
  | submit : Ciphertext → Ciphertext → Nat → Event
  | requestDec : Nat → Nat → Event
  | callback : Nat → Bytes → Nat → Event
  | requestTotal : Nat → Nat → Event
  | callbackTotal : Nat → Bytes → Nat → Event

/-- Execute one call, returning its outcome and the resulting storage
(`submit` cannot fail). -/
def stepResult (verify : Verifier) (s : ContractState) :
    Event → Except ProtocolError Unit × ContractState
  | Event.submit w m ts => (Except.ok (), (submitEncryptedUpdate w m ts s).2)
  | Event.requestDec updateId reqId => requestUpdateDecryption reqId updateId s
  | Event.callback reqId ct pf => decryptContribution verify reqId ct pf s
  | Event.requestTotal updateId reqId => requestContributionTotalDecryption reqId updateId s
  | Event.callbackTotal reqId ct pf => decryptTotalContribution verify reqId ct pf s

/-- The storage after one call (failed calls leave storage unchanged per the
individual operations). -/
def stepState (verify : Verifier) (s : ContractState) (e : Event) : ContractState :=
  (stepResult verify s e).2

/-- Run a sequence of calls. -/
def run (verify : Verifier) (s : ContractState) (tr : List Event) : ContractState :=
  tr.foldl (stepState verify) s

/-- States reachable from a freshly deployed contract by some call sequence. -/
def Reachable (verify : Verifier) (s : ContractState) : Prop :=
  ∃ tr : List Event, s = run verify initialState tr

/-- Whether an event is a decryption request (in either lane) that the
environment resolves to the oracle request id `r`. -/
def mentionsReq (r : Nat) : Event → Bool
  | Event.requestDec _ reqId => reqId == r
  | Event.requestTotal _ reqId => reqId == r
  | _ => false

/-- Whether an event is a `submit` call. -/
def Event.isSubmit : Event → Bool
  | Event.submit _ _ _ => true
  | _ => false

/-- The ids handed out by the `submit` calls of a call sequence, in order. -/
def submitIdsFrom (verify : Verifier) : ContractState → List Event → List Nat
  | _, [] => []
  | s, Event.submit w m ts :: tr =>
      (submitEncryptedUpdate w m ts s).1 ::
        submitIdsFrom verify (submitEncryptedUpdate w m ts s).2 tr
  | s, Event.requestDec updateId reqId :: tr =>
      submitIdsFrom verify (stepState verify s (Event.requestDec updateId reqId)) tr
  | s, Event.callback reqId ct pf :: tr =>
      submitIdsFrom verify (stepState verify s (Event.callback reqId ct pf)) tr
  | s, Event.requestTotal updateId reqId :: tr =>
      submitIdsFrom verify (stepState verify s (Event.requestTotal updateId reqId)) tr
  | s, Event.callbackTotal reqId ct pf :: tr =>
      submitIdsFrom verify (stepState verify s (Event.callbackTotal reqId ct pf)) tr

/-! ### Helper lemmas about the individual operations -/

theorem decodeUint32Array_mem_lt {ct : Bytes} {l : List Nat}
    (h : decodeUint32Array ct = some l) : ∀ x ∈ l, x < 2 ^ 32 := by
  cases ct with
  | arr xs =>
    simp only [decodeUint32Array, Option.some.injEq] at h
    subst h
    intro x hx
    obtain ⟨y, -, rfl⟩ := List.mem_map.mp hx
    exact Nat.mod_lt _ (by norm_num)
  | scalar v => simp [decodeUint32Array] at h

@[simp] theorem markRevealed_updateCount (s : ContractState) (u v : Nat) :
    (markRevealed s u v).updateCount = s.updateCount := rfl

@[simp] theorem markRevealed_encryptedUpdates (s : ContractState) (u v : Nat) :
    (markRevealed s u v).encryptedUpdates = s.encryptedUpdates := rfl

@[simp] theorem markRevealed_totals (s : ContractState) (u v : Nat) :
    (markRevealed s u v).encryptedContributionTotals = s.encryptedContributionTotals := rfl

@[simp] theorem markRevealed_participantList (s : ContractState) (u v : Nat) :
    (markRevealed s u v).participantList = s.participantList := rfl

@[simp] theorem markRevealed_requestToUpdateId (s : ContractState) (u v : Nat) :
    (markRevealed s u v).requestToUpdateId = s.requestToUpdateId := rfl

theorem markRevealed_contributions_self (s : ContractState) (u v : Nat) :
    (markRevealed s u v).decryptedContributions u =
      ⟨(s.decryptedContributions u).participantId, v, true⟩ :=
  Function.update_same u _ s.decryptedContributions

theorem markRevealed_contributions_noteq (s : ContractState) (u v y : Nat)
    (h : y ≠ u) :
    (markRevealed s u v).decryptedContributions y = s.decryptedContributions y :=
  Function.update_noteq h _ s.decryptedContributions

@[simp] theorem accumulate_updateCount (s : ContractState) (u v : Nat) :
    (accumulate s u v).updateCount = s.updateCount := by
  unfold accumulate; split <;> rfl

@[simp] theorem accumulate_encryptedUpdates (s : ContractState) (u v : Nat) :
    (accumulate s u v).encryptedUpdates = s.encryptedUpdates := by
  unfold accumulate; split <;> rfl

@[simp] theorem accumulate_contributions (s : ContractState) (u v : Nat) :
    (accumulate s u v).decryptedContributions = s.decryptedContributions := by
  unfold accumulate; split <;> rfl

@[simp] theorem accumulate_requestToUpdateId (s : ContractState) (u v : Nat) :
    (accumulate s u v).requestToUpdateId = s.requestToUpdateId := by
  unfold accumulate; split <;> rfl

@[simp] theorem accumulate_log (s : ContractState) (u v : Nat) :
    (accumulate s u v).log = s.log := by
  unfold accumulate; split <;> rfl

theorem accumulate_participantList (s : ContractState) (u v : Nat) :
    (accumulate s u v).participantList = s.participantList ∨
      (accumulate s u v).participantList = s.participantList ++ [u] := by
  unfold accumulate; split
  · exact Or.inr rfl
  · exact Or.inl rfl

theorem accumulate_totals_self (s : ContractState) (u v : Nat) :
    (accumulate s u v).encryptedContributionTotals u =
      FHE.add
        (if FHE.isInitialized (s.encryptedContributionTotals u) = false then
          FHE.asEuint32 0
        else s.encryptedContributionTotals u)
        (FHE.asEuint32 v) := by
  unfold accumulate; split <;> simp [Function.update_same]

theorem accumulate_totals_noteq (s : ContractState) (u v y : Nat) (h : y ≠ u) :
    (accumulate s u v).encryptedContributionTotals y =
      s.encryptedContributionTotals y := by
  unfold accumulate; split
  · simp only [Function.update_noteq h]
  · simp only [Function.update_noteq h]

theorem accumulate_totals_self_valD (s : ContractState) (u v : Nat) :
    (accumulate s u v).encryptedContributionTotals u =
      Ciphertext.enc
        (((s.encryptedContributionTotals u).valD + v) % 2 ^ 32) := by
  rw [accumulate_totals_self]
  cases h : s.encryptedContributionTotals u with
  | uninit =>
    simp [FHE.isInitialized, FHE.asEuint32, FHE.add, Ciphertext.valD, Nat.add_mod]
  | enc a =>
    simp [FHE.isInitialized, FHE.asEuint32, FHE.add, Ciphertext.valD, Nat.add_mod]

theorem decryptContribution_ok (verify : Verifier) (requestId : Nat) (ct : Bytes)
    (pf : Nat) (s : ContractState) (u v : Nat) (rest : List Nat)
    (hu : s.requestToUpdateId requestId = u) (hu0 : u ≠ 0)
    (hv : verify requestId ct pf = true)
    (hct : decodeUint32Array ct = some (v :: rest)) :
    decryptContribution verify requestId ct pf s =
      (Except.ok (),
        { accumulate (markRevealed s u v) u v with
          log := (accumulate (markRevealed s u v) u v).log ++
            [LogEvent.ContributionDecrypted u] }) := by
  unfold decryptContribution
  simp only [hu, hu0, if_false, hv, hct]
  simp

@[simp] theorem submitEncryptedUpdate_fst (w m : Ciphertext) (ts : Nat)
    (s : ContractState) :
    (submitEncryptedUpdate w m ts s).1 = s.updateCount + 1 := rfl

@[simp] theorem submitEncryptedUpdate_updateCount (w m : Ciphertext) (ts : Nat)
    (s : ContractState) :
    ((submitEncryptedUpdate w m ts s).2).updateCount = s.updateCount + 1 := rfl

@[simp] theorem submitEncryptedUpdate_requestToUpdateId (w m : Ciphertext)
    (ts : Nat) (s : ContractState) :
    ((submitEncryptedUpdate w m ts s).2).requestToUpdateId = s.requestToUpdateId := rfl

@[simp] theorem requestUpdateDecryption_updateCount (reqId updateId : Nat)
    (s : ContractState) :
    ((requestUpdateDecryption reqId updateId s).2).updateCount = s.updateCount := by
  unfold requestUpdateDecryption; split <;> rfl

theorem requestUpdateDecryption_requestToUpdateId_noteq (reqId updateId r : Nat)
    (s : ContractState) (h : r ≠ reqId) :
    ((requestUpdateDecryption reqId updateId s).2).requestToUpdateId r =
      s.requestToUpdateId r := by
  unfold requestUpdateDecryption; split
  · rfl
  · exact Function.update_noteq h _ _

theorem requestUpdateDecryption_error_state (reqId updateId : Nat)
    (s : ContractState) (e : ProtocolError)
    (h : (requestUpdateDecryption reqId updateId s).1 = Except.error e) :
    (requestUpdateDecryption reqId updateId s).2 = s := by
  revert h; unfold requestUpdateDecryption; split
  · intro _; rfl
  · intro h; simp at h

@[simp] theorem requestContributionTotalDecryption_updateCount
    (reqId updateId : Nat) (s : ContractState) :
    ((requestContributionTotalDecryption reqId updateId s).2).updateCount =
      s.updateCount := by
  unfold requestContributionTotalDecryption; dsimp only; split <;> rfl

theorem requestContributionTotalDecryption_requestToUpdateId_noteq
    (reqId updateId r : Nat) (s : ContractState) (h : r ≠ reqId) :
    ((requestContributionTotalDecryption reqId updateId s).2).requestToUpdateId r =
      s.requestToUpdateId r := by
  unfold requestContributionTotalDecryption; dsimp only; split
  · rfl
  · exact Function.update_noteq h _ _

theorem requestContributionTotalDecryption_error_state (reqId updateId : Nat)
    (s : ContractState) (e : ProtocolError)
    (h : (requestContributionTotalDecryption reqId updateId s).1 = Except.error e) :
    (requestContributionTotalDecryption reqId updateId s).2 = s := by
  revert h; unfold requestContributionTotalDecryption; dsimp only; split
  · intro _; rfl
  · intro h; simp at h

theorem decryptTotalContribution_state (verify : Verifier) (r : Nat) (ct : Bytes)
    (pf : Nat) (s : ContractState) :
    (decryptTotalContribution verify r ct pf s).2 = s := by
  unfold decryptTotalContribution; dsimp only; split
  · rfl
  · split <;> rfl

@[simp] theorem decryptContribution_updateCount (verify : Verifier) (r : Nat)
    (ct : Bytes) (pf : Nat) (s : ContractState) :
    ((decryptContribution verify r ct pf s).2).updateCount = s.updateCount := by
  unfold decryptContribution
  dsimp only
  split
  · rfl
  · split
    · rfl
    · split
      · rfl
      · split
        · rfl
        · simp

@[simp] theorem decryptContribution_encryptedUpdates (verify : Verifier) (r : Nat)
    (ct : Bytes) (pf : Nat) (s : ContractState) :
    ((decryptContribution verify r ct pf s).2).encryptedUpdates =
      s.encryptedUpdates := by
  unfold decryptContribution
  dsimp only
  split
  · rfl
  · split
    · rfl
    · split
      · rfl
      · split
        · rfl
        · simp

@[simp] theorem decryptContribution_requestToUpdateId (verify : Verifier) (r : Nat)
    (ct : Bytes) (pf : Nat) (s : ContractState) :
    ((decryptContribution verify r ct pf s).2).requestToUpdateId =
      s.requestToUpdateId := by
  unfold decryptContribution
  dsimp only
  split
  · rfl
  · split
    · rfl
    · split
      · rfl
      · split
        · rfl
        · simp

theorem decryptContribution_error_state (verify : Verifier) (r : Nat) (ct : Bytes)
    (pf : Nat) (s : ContractState) (e : ProtocolError)
    (h : (decryptContribution verify r ct pf s).1 = Except.error e) :
    (decryptContribution verify r ct pf s).2 = s := by
  revert h; unfold decryptContribution
  dsimp only
  split
  · intro _; rfl
  · split
    · intro _; rfl
    · split
      · intro _; rfl
      · split
        · intro _; rfl
        · intro h; simp at h

theorem stepState_requestToUpdateId_eq (verify : Verifier) (s : ContractState)
    (e : Event) (r : Nat) (h : mentionsReq r e = false) :
    (stepState verify s e).requestToUpdateId r = s.requestToUpdateId r := by
  cases e with
  | submit w m ts => rfl
  | requestDec updateId reqId =>
    simp only [mentionsReq, beq_eq_false_iff_ne, ne_eq] at h
    exact requestUpdateDecryption_requestToUpdateId_noteq _ _ _ _ (Ne.symm h)
  | callback reqId ct pf =>
    exact congrFun (decryptContribution_requestToUpdateId verify reqId ct pf s) r
  | requestTotal updateId reqId =>
    simp only [mentionsReq, beq_eq_false_iff_ne, ne_eq] at h
    exact requestContributionTotalDecryption_requestToUpdateId_noteq _ _ _ _ (Ne.symm h)
  | callbackTotal reqId ct pf =>
    exact congrFun (congrArg ContractState.requestToUpdateId
      (decryptTotalContribution_state verify reqId ct pf s)) r

theorem run_requestToUpdateId_eq (verify : Verifier) (r : Nat) :
    ∀ (tr : List Event) (s : ContractState),
      (∀ e ∈ tr, mentionsReq r e = false) →
      (run verify s tr).requestToUpdateId r = s.requestToUpdateId r := by
  intro tr
  induction tr with
  | nil => intro s _; rfl
  | cons e tr ih =>
    intro s h
    have h1 : mentionsReq r e = false := h e (List.mem_cons_self e tr)
    have h2 : ∀ x ∈ tr, mentionsReq r x = false :=
      fun x hx => h x (List.mem_cons_of_mem e hx)
    calc (run verify s (e :: tr)).requestToUpdateId r
        = (run verify (stepState verify s e) tr).requestToUpdateId r := rfl
      _ = (stepState verify s e).requestToUpdateId r := ih _ h2
      _ = s.requestToUpdateId r := stepState_requestToUpdateId_eq verify s e r h1

theorem stepState_updateCount_of_not_submit (verify : Verifier)
    (s : ContractState) (e : Event) (h : Event.isSubmit e = false) :
    (stepState verify s e).updateCount = s.updateCount := by
  cases e with
  | submit w m ts => simp [Event.isSubmit] at h
  | requestDec updateId reqId =>
    exact requestUpdateDecryption_updateCount reqId updateId s
  | callback reqId ct pf => exact decryptContribution_updateCount verify reqId ct pf s
  | requestTotal updateId reqId =>
    exact requestContributionTotalDecryption_updateCount reqId updateId s
  | callbackTotal reqId ct pf =>
    exact congrArg ContractState.updateCount
      (decryptTotalContribution_state verify reqId ct pf s)

theorem decryptTotalContribution_ne_unknown (verify : Verifier) (r : Nat)
    (ct : Bytes) (pf : Nat) (s : ContractState) :
    (decryptTotalContribution verify r ct pf s).1 ≠
      Except.error ProtocolError.UnknownRequest := by
  unfold decryptTotalContribution; dsimp only
  split
  · simp
  · split <;> simp

/-! ### Claim theorems -/

/-- Claim C1, counterexample: a callback carrying a forged proof (the verifier
rejects everything) and a request id the tracker does not know fails with
`UnknownRequest`, not `VerificationFailed` — the request lookup precedes the
proof check, so the claim "fails with VerificationFailed regardless of whether
the requestId is known" is false on the code. -/
theorem C1_counterexample :
    (decryptContribution (fun _ _ _ => false) 1 (Bytes.arr [7]) 0 initialState).1 =
      Except.error ProtocolError.UnknownRequest ∧
    (Except.error ProtocolError.UnknownRequest : Except ProtocolError Unit) ≠
      Except.error ProtocolError.VerificationFailed := by
  exact ⟨rfl, fun hc => ProtocolError.noConfusion (Except.error.inj hc)⟩

/-- Claim C1 (amended): in `decryptContribution`, a call whose proof the
verifier rejects always fails before any state mutation; the failure is
`VerificationFailed` when the request id is known to the tracker (nonzero
target) and `UnknownRequest` when it is not — the request lookup, not the
proof check, comes first, but verification still precedes every state
mutation. -/
theorem C1_verification_after_lookup (verify : Verifier) (requestId : Nat)
    (ct : Bytes) (pf : Nat) (s : ContractState)
    (h : verify requestId ct pf = false) :
    (decryptContribution verify requestId ct pf s).2 = s ∧
    (s.requestToUpdateId requestId ≠ 0 →
      (decryptContribution verify requestId ct pf s).1 =
        Except.error ProtocolError.VerificationFailed) ∧
    (s.requestToUpdateId requestId = 0 →
      (decryptContribution verify requestId ct pf s).1 =
        Except.error ProtocolError.UnknownRequest) := by
  unfold decryptContribution; dsimp only
  by_cases h0 : s.requestToUpdateId requestId = 0
  · simp [h0]
  · simp [h0, h]

/-- Witness for C1: with an always-rejecting verifier, on a state where
request id 1 is tracked (issued for update 1), the callback fails with
`VerificationFailed`. -/
theorem C1_witness :
    (decryptContribution (fun _ _ _ => false) 1 (Bytes.arr [7]) 0
        (requestUpdateDecryption 1 1 initialState).2).1 =
      Except.error ProtocolError.VerificationFailed :=
  (C1_verification_after_lookup (fun _ _ _ => false) 1 (Bytes.arr [7]) 0
      (requestUpdateDecryption 1 1 initialState).2 rfl).2.1 (by decide)

/-- Claim C2, counterexample: for request id 1, which no decryption request in
either lane ever issued (the contract is freshly deployed, so the tracker is
empty), the total-reveal callback `decryptTotalContribution` does not fail
with `UnknownRequest` — with an accepting verifier it succeeds, because it
performs no tracker check. -/
theorem C2_counterexample :
    (decryptTotalContribution (fun _ _ _ => true) 1 (Bytes.scalar 42) 0
        initialState).1 = Except.ok () ∧
    initialState.requestToUpdateId 1 = 0 :=
  ⟨rfl, rfl⟩

/-- Claim C2 (amended): after any call sequence from deployment in which no
decryption request of either lane was resolved to request id `r`, invoking the
individual-update callback `decryptContribution` with `r` fails with
`UnknownRequest` (leaving the state unchanged); the total-reveal callback
`decryptTotalContribution`, by contrast, performs no tracker check and never
fails with `UnknownRequest`. -/
theorem C2_unknown_request (verify : Verifier) (tr : List Event) (r : Nat)
    (ct ct2 : Bytes) (pf pf2 : Nat)
    (h : ∀ e ∈ tr, mentionsReq r e = false) :
    decryptContribution verify r ct pf (run verify initialState tr) =
      (Except.error ProtocolError.UnknownRequest, run verify initialState tr) ∧
    (decryptTotalContribution verify r ct2 pf2 (run verify initialState tr)).1 ≠
      Except.error ProtocolError.UnknownRequest := by
  have h0 : (run verify initialState tr).requestToUpdateId r = 0 := by
    rw [run_requestToUpdateId_eq verify r tr initialState h]; rfl
  constructor
  · unfold decryptContribution; dsimp only; simp [h0]
  · exact decryptTotalContribution_ne_unknown verify r ct2 pf2 _

/-- Witness for C2: the empty call sequence issues nothing, so the
individual-update callback with request id 1 fails with `UnknownRequest`. -/
theorem C2_witness :
    decryptContribution (fun _ _ _ => true) 1 (Bytes.arr [5]) 0
        (run (fun _ _ _ => true) initialState []) =
      (Except.error ProtocolError.UnknownRequest,
        run (fun _ _ _ => true) initialState []) :=
  (C2_unknown_request (fun _ _ _ => true) [] 1 (Bytes.arr [5]) (Bytes.scalar 1)
      0 0 (fun e he => absurd he (List.not_mem_nil e))).1

/-- Claim C8 (confirmed): `requestUpdateDecryption` on an id whose record is
already revealed fails with `AlreadyRevealed` and performs no state
mutation. -/
theorem C8_already_revealed (reqId updateId : Nat) (s : ContractState)
    (h : (s.decryptedContributions updateId).isRevealed = true) :
    requestUpdateDecryption reqId updateId s =
      (Except.error ProtocolError.AlreadyRevealed, s) := by
  unfold requestUpdateDecryption
  simp [h]

/-- Witness for C8: on a state whose record for id 1 is revealed, a
re-request for id 1 fails with `AlreadyRevealed` and leaves the state
unchanged. -/
theorem C8_witness :
    requestUpdateDecryption 4 1 (markRevealed initialState 1 7) =
      (Except.error ProtocolError.AlreadyRevealed,
        markRevealed initialState 1 7) :=
  C8_already_revealed 4 1 (markRevealed initialState 1 7) (by decide)

/-- Claim C10 (confirmed): every protocol operation that fails does so
synchronously, leaving the entire storage (counter, ledgers, tracker, totals,
participant index, event log) exactly as it was before the call; `submit`
never fails. -/
theorem C10_atomicity (verify : Verifier) (e : Event) (s : ContractState)
    (err : ProtocolError) (h : (stepResult verify s e).1 = Except.error err) :
    (stepResult verify s e).2 = s := by
  cases e with
  | submit w m ts => simp [stepResult] at h
  | requestDec updateId reqId =>
    exact requestUpdateDecryption_error_state reqId updateId s err h
  | callback reqId ct pf =>
    exact decryptContribution_error_state verify reqId ct pf s err h
  | requestTotal updateId reqId =>
    exact requestContributionTotalDecryption_error_state reqId updateId s err h
  | callbackTotal reqId ct pf =>
    exact decryptTotalContribution_state verify reqId ct pf s

/-- Witness for C10: the individual-update callback with an unissued request
id fails (with `UnknownRequest`) and leaves the freshly deployed state
unchanged. -/
theorem C10_witness :
    (stepResult (fun _ _ _ => true) initialState
        (Event.callback 1 (Bytes.arr [5]) 0)).2 = initialState :=
  C10_atomicity (fun _ _ _ => true) (Event.callback 1 (Bytes.arr [5]) 0)
    initialState ProtocolError.UnknownRequest rfl

/-- Claim C3 (confirmed): a successful callback does not consume the request
mapping: afterwards the same request id still resolves to the same target, an
identical second callback succeeds again, leaves the record revealed with the
same value, and adds the decoded value into the target's aggregate total a
second time (double-accumulation, modulo 2^32). -/
theorem C3_replay_double_accumulation (verify : Verifier) (r : Nat) (ct : Bytes)
    (pf : Nat) (s : ContractState) (u v : Nat) (rest : List Nat)
    (hu : s.requestToUpdateId r = u) (hu0 : u ≠ 0)
    (hv : verify r ct pf = true)
    (hct : decodeUint32Array ct = some (v :: rest)) :
    (decryptContribution verify r ct pf s).1 = Except.ok () ∧
    ((decryptContribution verify r ct pf s).2).requestToUpdateId r = u ∧
    (decryptContribution verify r ct pf
        ((decryptContribution verify r ct pf s).2)).1 = Except.ok () ∧
    ((decryptContribution verify r ct pf
        ((decryptContribution verify r ct pf s).2)).2).decryptedContributions u =
      ⟨(s.decryptedContributions u).participantId, v, true⟩ ∧
    ((decryptContribution verify r ct pf
        ((decryptContribution verify r ct pf s).2)).2).encryptedContributionTotals u =
      Ciphertext.enc
        (((s.encryptedContributionTotals u).valD + v + v) % 2 ^ 32) := by
  have e1 := decryptContribution_ok verify r ct pf s u v rest hu hu0 hv hct
  have hu1 : ((decryptContribution verify r ct pf s).2).requestToUpdateId r = u := by
    rw [e1]; simp [hu]
  have e2 := decryptContribution_ok verify r ct pf
    ((decryptContribution verify r ct pf s).2) u v rest hu1 hu0 hv hct
  refine ⟨by rw [e1], hu1, by rw [e2], ?_, ?_⟩
  · rw [e2, e1]
    simp [markRevealed_contributions_self]
  · rw [e2, e1]
    simp only [accumulate_log, accumulate_contributions, accumulate_totals_self_valD,
      markRevealed_totals, accumulate_totals_self_valD, Ciphertext.valD,
      Nat.mod_add_mod]

/-- Witness for C3: with request id 1 mapped to update 1, replaying the same
valid callback (value 30) twice accumulates 60 into update 1's total. -/
theorem C3_witness :
    ((decryptContribution (fun _ _ _ => true) 1 (Bytes.arr [30]) 0
        ((decryptContribution (fun _ _ _ => true) 1 (Bytes.arr [30]) 0
          (requestUpdateDecryption 1 1 initialState).2).2)).2).encryptedContributionTotals 1 =
      Ciphertext.enc 60 := by
  have h := C3_replay_double_accumulation (fun _ _ _ => true) 1 (Bytes.arr [30]) 0
    (requestUpdateDecryption 1 1 initialState).2 1 30 [] (by decide) (by decide)
    rfl (by decide)
  exact h.2.2.2.2.trans (by decide)

/-- Claim C4 (confirmed): both callback lanes share `requestToUpdateId`: a
request id issued by `requestContributionTotalDecryption` for id `X` is
accepted by the individual-update callback `decryptContribution`, which marks
`X`'s record revealed with the decoded first cleartext element and adds that
value into `X`'s aggregate total, instead of rejecting the request as
belonging to the other lane. -/
theorem C4_shared_request_map (verify : Verifier) (s : ContractState)
    (X reqId : Nat) (ct : Bytes) (pf : Nat) (v : Nat) (rest : List Nat)
    (hX : X ≠ 0)
    (hinit : FHE.isInitialized (s.encryptedContributionTotals X) = true)
    (hv : verify reqId ct pf = true)
    (hct : decodeUint32Array ct = some (v :: rest)) :
    (requestContributionTotalDecryption reqId X s).1 = Except.ok () ∧
    ((requestContributionTotalDecryption reqId X s).2).requestToUpdateId reqId = X ∧
    (decryptContribution verify reqId ct pf
        ((requestContributionTotalDecryption reqId X s).2)).1 = Except.ok () ∧
    ((decryptContribution verify reqId ct pf
        ((requestContributionTotalDecryption reqId X s).2)).2).decryptedContributions X =
      ⟨(s.decryptedContributions X).participantId, v, true⟩ ∧
    ((decryptContribution verify reqId ct pf
        ((requestContributionTotalDecryption reqId X s).2)).2).encryptedContributionTotals X =
      Ciphertext.enc (((s.encryptedContributionTotals X).valD + v) % 2 ^ 32) := by
  have eq1 : requestContributionTotalDecryption reqId X s =
      (Except.ok (),
        { s with requestToUpdateId := Function.update s.requestToUpdateId reqId X }) := by
    unfold requestContributionTotalDecryption; dsimp only
    simp [hinit]
  have hu : ((requestContributionTotalDecryption reqId X s).2).requestToUpdateId reqId = X := by
    rw [eq1]; exact Function.update_same reqId X s.requestToUpdateId
  have e2 := decryptContribution_ok verify reqId ct pf
    ((requestContributionTotalDecryption reqId X s).2) X v rest hu hX hv hct
  refine ⟨by rw [eq1], hu, by rw [e2], ?_, ?_⟩
  · rw [e2, eq1]
    simp [markRevealed_contributions_self]
  · rw [e2, eq1]
    simp only [accumulate_log, accumulate_totals_self_valD, markRevealed_totals]

/-- Witness for C4: with update 3's total initialized at 10, the total-lane
request id 8 fed into the individual-update callback with cleartexts [5]
succeeds and bumps update 3's total to 15. -/
theorem C4_witness :
    ((decryptContribution (fun _ _ _ => true) 8 (Bytes.arr [5]) 0
        ((requestContributionTotalDecryption 8 3 (accumulate initialState 3 10)).2)).2).encryptedContributionTotals 3 =
      Ciphertext.enc 15 := by
  have h := C4_shared_request_map (fun _ _ _ => true) (accumulate initialState 3 10)
    3 8 (Bytes.arr [5]) 0 5 [] (by decide) (by decide) rfl (by decide)
  exact h.2.2.2.2.trans (by decide)

/-- Claim C7 (confirmed): the round trip works — submit a fresh update,
request its decryption, then deliver a valid callback whose cleartexts decode
to `[v]`; afterwards `getDecryptedContribution` on the fresh id returns
exactly `(id, v, true)`. -/
theorem C7_round_trip (verify : Verifier) (s : ContractState)
    (w m : Ciphertext) (ts reqId : Nat) (ct : Bytes) (pf v : Nat)
    (hv : verify reqId ct pf = true)
    (hct : decodeUint32Array ct = some [v]) :
    (requestUpdateDecryption reqId (submitEncryptedUpdate w m ts s).1
        (submitEncryptedUpdate w m ts s).2).1 = Except.ok () ∧
    (decryptContribution verify reqId ct pf
        ((requestUpdateDecryption reqId (submitEncryptedUpdate w m ts s).1
          (submitEncryptedUpdate w m ts s).2).2)).1 = Except.ok () ∧
    getDecryptedContribution (submitEncryptedUpdate w m ts s).1
        ((decryptContribution verify reqId ct pf
          ((requestUpdateDecryption reqId (submitEncryptedUpdate w m ts s).1
            (submitEncryptedUpdate w m ts s).2).2)).2) =
      ((submitEncryptedUpdate w m ts s).1, v, true) := by
  have hfresh : (((submitEncryptedUpdate w m ts s).2).decryptedContributions
      (submitEncryptedUpdate w m ts s).1) = ⟨s.updateCount + 1, 0, false⟩ := by
    simp [submitEncryptedUpdate, Function.update_same]
  have eq1 : requestUpdateDecryption reqId (submitEncryptedUpdate w m ts s).1
      (submitEncryptedUpdate w m ts s).2 =
      (Except.ok (),
        { (submitEncryptedUpdate w m ts s).2 with
          requestToUpdateId :=
            Function.update ((submitEncryptedUpdate w m ts s).2).requestToUpdateId
              reqId (submitEncryptedUpdate w m ts s).1
          log := ((submitEncryptedUpdate w m ts s).2).log ++
            [LogEvent.DecryptionRequested (submitEncryptedUpdate w m ts s).1] }) := by
    unfold requestUpdateDecryption
    rw [hfresh]
    simp
  have hu : ((requestUpdateDecryption reqId (submitEncryptedUpdate w m ts s).1
      (submitEncryptedUpdate w m ts s).2).2).requestToUpdateId reqId =
      (submitEncryptedUpdate w m ts s).1 := by
    rw [eq1]; exact Function.update_same reqId _ _
  have e2 := decryptContribution_ok verify reqId ct pf
    ((requestUpdateDecryption reqId (submitEncryptedUpdate w m ts s).1
      (submitEncryptedUpdate w m ts s).2).2)
    (submitEncryptedUpdate w m ts s).1 v [] hu (Nat.succ_ne_zero s.updateCount)
    hv hct
  refine ⟨by rw [eq1], by rw [e2], ?_⟩
  unfold getDecryptedContribution
  rw [e2]
  dsimp only
  simp only [accumulate_contributions, markRevealed_contributions_self]
  rw [eq1]
  dsimp only
  rw [hfresh]
  rfl

/-- Witness for C7: submitting to a fresh contract yields id 1; after the
decryption request (request id 9) and a valid callback with cleartexts [30],
the decrypted contribution reads (1, 30, true). -/
theorem C7_witness :
    getDecryptedContribution
        (submitEncryptedUpdate Ciphertext.uninit Ciphertext.uninit 0 initialState).1
        ((decryptContribution (fun _ _ _ => true) 9 (Bytes.arr [30]) 0
          ((requestUpdateDecryption 9
            (submitEncryptedUpdate Ciphertext.uninit Ciphertext.uninit 0 initialState).1
            (submitEncryptedUpdate Ciphertext.uninit Ciphertext.uninit 0 initialState).2).2)).2) =
      ((submitEncryptedUpdate Ciphertext.uninit Ciphertext.uninit 0 initialState).1,
        30, true) :=
  (C7_round_trip (fun _ _ _ => true) initialState Ciphertext.uninit
    Ciphertext.uninit 0 9 (Bytes.arr [30]) 0 30 rfl (by decide)).2.2

/-- Claim C9 (confirmed): a successful individual-update callback whose
request id resolves to `X` changes only `X`'s record and `X`'s total: counter,
update ledger and request tracker are untouched, every other id's record and
total are unchanged, the participant index is either unchanged or gets `X`
appended at the end (so no other id's position moves), and the decoded value
is added exactly into `X`'s total. -/
theorem C9_frame (verify : Verifier) (r : Nat) (ct : Bytes) (pf : Nat)
    (s s2 : ContractState)
    (h : decryptContribution verify r ct pf s = (Except.ok (), s2)) :
    s2.updateCount = s.updateCount ∧
    s2.encryptedUpdates = s.encryptedUpdates ∧
    s2.requestToUpdateId = s.requestToUpdateId ∧
    (∀ y, y ≠ s.requestToUpdateId r →
      s2.decryptedContributions y = s.decryptedContributions y ∧
      s2.encryptedContributionTotals y = s.encryptedContributionTotals y) ∧
    (s2.participantList = s.participantList ∨
      s2.participantList = s.participantList ++ [s.requestToUpdateId r]) ∧
    (∃ v rest, decodeUint32Array ct = some (v :: rest) ∧
      s2.encryptedContributionTotals (s.requestToUpdateId r) =
        Ciphertext.enc
          (((s.encryptedContributionTotals (s.requestToUpdateId r)).valD + v)
            % 2 ^ 32)) := by
  revert h
  unfold decryptContribution; dsimp only
  split
  · intro h; exact absurd (congrArg Prod.fst h) (by simp)
  · split
    · intro h; exact absurd (congrArg Prod.fst h) (by simp)
    · split
      · intro h; exact absurd (congrArg Prod.fst h) (by simp)
      · split
        · intro h; exact absurd (congrArg Prod.fst h) (by simp)
        · next v rest heq =>
          intro h
          have hs2 := congrArg Prod.snd h
          dsimp only at hs2
          rw [← hs2]
          refine ⟨by simp, by simp, by simp, ?_, ?_, ?_⟩
          · intro y hy
            constructor
            · simp only [accumulate_contributions]
              exact markRevealed_contributions_noteq s _ v y hy
            · rw [accumulate_totals_noteq _ _ _ _ hy]
              simp
          · simp only [accumulate_log]
            rcases accumulate_participantList
                (markRevealed s (s.requestToUpdateId r) v) (s.requestToUpdateId r) v
              with hl | hl
            · exact Or.inl (by rw [hl]; rfl)
            · exact Or.inr (by rw [hl]; rfl)
          · refine ⟨v, rest, ?_, ?_⟩
            · exact heq
            · simp only [accumulate_totals_self_valD, markRevealed_totals]

/-- Witness for C9: on a state where request 1 targets update 1, a successful
callback leaves update 2's record unchanged. -/
theorem C9_witness :
    (((decryptContribution (fun _ _ _ => true) 1 (Bytes.arr [30]) 0
        (requestUpdateDecryption 1 1 initialState).2).2).decryptedContributions 2) =
      (((requestUpdateDecryption 1 1 initialState).2).decryptedContributions 2) :=
  ((C9_frame (fun _ _ _ => true) 1 (Bytes.arr [30]) 0
      (requestUpdateDecryption 1 1 initialState).2
      ((decryptContribution (fun _ _ _ => true) 1 (Bytes.arr [30]) 0
        (requestUpdateDecryption 1 1 initialState).2).2)
      rfl).2.2.2.1 2 (by decide)).1

/-- Claim C5, counterexample: the state reached from deployment by the single
call `requestUpdateDecryption(5)` (the oracle assigning request id 7) is
reachable, its tracker maps request 7 to target 5, yet no update was ever
submitted: the counter is 0 and both ledger entries for id 5 are the mapping
defaults — so "every tracked requestId maps to a targetId for which an
EncryptedUpdate and ContributionRecord exist" is false on the code. -/
theorem C5_counterexample :
    Reachable (fun _ _ _ => true)
      (run (fun _ _ _ => true) initialState [Event.requestDec 5 7]) ∧
    (run (fun _ _ _ => true) initialState
        [Event.requestDec 5 7]).requestToUpdateId 7 = 5 ∧
    (run (fun _ _ _ => true) initialState [Event.requestDec 5 7]).updateCount = 0 ∧
    (run (fun _ _ _ => true) initialState
        [Event.requestDec 5 7]).encryptedUpdates 5 =
      ⟨0, Ciphertext.uninit, Ciphertext.uninit, 0⟩ ∧
    (run (fun _ _ _ => true) initialState
        [Event.requestDec 5 7]).decryptedContributions 5 = ⟨0, 0, false⟩ :=
  ⟨⟨[Event.requestDec 5 7], rfl⟩, by decide, by decide, by decide, by decide⟩

/-- Claim C5 (amended): in every reachable state each request id in the
tracker maps to exactly one target id (the tracker is single-valued), but
that target need not have an existing EncryptedUpdate or ContributionRecord:
`requestUpdateDecryption` accepts any update id whose record is not revealed,
including ids never submitted, and records the mapping for it. -/
theorem C5_tracker_unique_target :
    (∀ (verify : Verifier) (s : ContractState), Reachable verify s →
      ∀ r t1 t2, s.requestToUpdateId r = t1 → s.requestToUpdateId r = t2 →
        t1 = t2) ∧
    (∀ (reqId updateId : Nat) (s : ContractState),
      (s.decryptedContributions updateId).isRevealed = false →
      (requestUpdateDecryption reqId updateId s).1 = Except.ok () ∧
      ((requestUpdateDecryption reqId updateId s).2).requestToUpdateId reqId =
        updateId) := by
  constructor
  · intro verify s _ r t1 t2 h1 h2
    rw [← h1, ← h2]
  · intro reqId updateId s h
    unfold requestUpdateDecryption
    simp [h, Function.update_same]

/-- Witness for C5: at the reachable initial state the tracker is
single-valued at request 0, and a decryption request for the never-submitted
id 5 succeeds and records the mapping 7 ↦ 5. -/
theorem C5_witness :
    (0 : Nat) = 0 ∧
    (requestUpdateDecryption 7 5 initialState).1 = Except.ok () ∧
    ((requestUpdateDecryption 7 5 initialState).2).requestToUpdateId 7 = 5 :=
  ⟨C5_tracker_unique_target.1 (fun _ _ _ => true) initialState ⟨[], rfl⟩
      0 0 0 rfl rfl,
    (C5_tracker_unique_target.2 7 5 initialState rfl).1,
    (C5_tracker_unique_target.2 7 5 initialState rfl).2⟩

theorem submitIdsFrom_eq_range (verify : Verifier) :
    ∀ (tr : List Event) (s : ContractState),
      submitIdsFrom verify s tr =
        List.range' (s.updateCount + 1) (tr.countP Event.isSubmit) := by
  intro tr
  induction tr with
  | nil => intro s; rfl
  | cons e tr ih =>
    intro s
    cases e with
    | submit w m ts =>
      simp only [submitIdsFrom, List.countP_cons, Event.isSubmit, if_true,
        submitEncryptedUpdate_fst, ih, submitEncryptedUpdate_updateCount]
      rw [List.range'_succ]
    | requestDec updateId reqId =>
      simp [submitIdsFrom, List.countP_cons, Event.isSubmit, ih,
        stepState_updateCount_of_not_submit verify s (Event.requestDec updateId reqId) rfl]
    | callback reqId ct pf =>
      simp [submitIdsFrom, List.countP_cons, Event.isSubmit, ih,
        stepState_updateCount_of_not_submit verify s (Event.callback reqId ct pf) rfl]
    | requestTotal updateId reqId =>
      simp [submitIdsFrom, List.countP_cons, Event.isSubmit, ih,
        stepState_updateCount_of_not_submit verify s (Event.requestTotal updateId reqId) rfl]
    | callbackTotal reqId ct pf =>
      simp [submitIdsFrom, List.countP_cons, Event.isSubmit, ih,
        stepState_updateCount_of_not_submit verify s (Event.callbackTotal reqId ct pf) rfl]

/-- Claim C6 (confirmed): over any call sequence from deployment, every
`submit` call allocates the next id from the single counter (the allocated id
is delivered back through the returned value, carried by the emitted
`UpdateSubmitted` event), and the ids handed out by the successive `submit`
calls are exactly the strictly increasing integers 1, 2, 3, …. -/
theorem C6_submit_ids_sequential (verify : Verifier) (tr : List Event) :
    submitIdsFrom verify initialState tr =
      List.range' 1 (tr.countP Event.isSubmit) :=
  submitIdsFrom_eq_range verify tr initialState

end AiContribFHE
